/-
Verification of the Feishu channel plugin (largezhou/moltbot):
a shallow embedding of the inbound event gateway (dedupe, staleness,
normalization, connection lifecycle) and the outbound send client,
with theorems checking the design document's properties.

Sources embedded:
  - src/extensions/feishu/src/gateway.ts  (dedupe cache, expiry check,
    event handler, startGateway/stopGateway, connection registry)
  - src/extensions/feishu/src/client.ts   (sendTextMessage, replyTextMessage)
  - src/extensions/feishu/src/channel.ts  (gateway onMessage callback)

Modelling conventions:
  - JS `Map<string, T>` becomes an association list `List (String × T)`;
    `Map.set` replaces in place or appends (JS insertion-order semantics),
    `Map.delete`/cleanup filter the list.  The "at most one entry per key"
    Map invariant appears as `Nodup` of the key list where a proof needs it.
  - `Date.now()` becomes an explicit `now : Nat` argument (milliseconds).
  - JS exceptions become `Except String`; code that catches them returns
    plain values, so totality of the Lean function is the no-throw guarantee.
  - Platform builtins used by the source (`parseInt`, `JSON.parse`,
    `JSON.stringify`, template-literal rendering of `undefined`) are
    modelled explicitly below, each marked as such.
-/

import Mathlib

namespace Feishu

/-! ## Association-list model of JS `Map<string, α>` -/

/-- First value bound to `k`, scanning left to right (JS `Map.get`). -/
def mapGet {α : Type} : List (String × α) → String → Option α
  | [], _ => none
  | (k, v) :: rest, key => if k = key then some v else mapGet rest key

/-- JS `Map.set`: overwrite the existing binding in place, else append. -/
def mapSet {α : Type} : List (String × α) → String → α → List (String × α)
  | [], k, v => [(k, v)]
  | (k', v') :: rest, k, v =>
      if k' = k then (k, v) :: rest else (k', v') :: mapSet rest k v

/-- JS `Map.delete`: remove every binding of `k` (at most one exists). -/
def mapDelete {α : Type} (c : List (String × α)) (k : String) : List (String × α) :=
  c.filter (fun e => decide (e.1 ≠ k))

/-! ## Dedupe cache (gateway.ts lines 10–47) -/

/-- `MESSAGE_DEDUPE_TTL_MS = 60 * 1000` (gateway.ts line 15). -/
def MESSAGE_DEDUPE_TTL_MS : Nat := 60 * 1000

/-- `MESSAGE_EXPIRE_TTL_MS = 30 * 60 * 1000` (gateway.ts line 20). -/
def MESSAGE_EXPIRE_TTL_MS : Int := 30 * 60 * 1000

/-- The `processedMessages` map: messageId -> first-seen timestamp. -/
abbrev DedupeCache := List (String × Nat)

/-- `cleanupDedupeCache` (gateway.ts lines 25–32): delete every entry with
`now - timestamp > MESSAGE_DEDUPE_TTL_MS`.  Nat subtraction truncates at 0,
which matches the JS comparison because the TTL is positive: whenever
`now < timestamp` both say "keep". -/
def cleanupDedupeCache (now : Nat) (c : DedupeCache) : DedupeCache :=
  c.filter (fun e => !decide (now - e.2 > MESSAGE_DEDUPE_TTL_MS))

/-- `isDuplicateMessage` (gateway.ts lines 37–47): returns whether the id was
already seen, and the updated cache (insertion, plus opportunistic cleanup
once the map holds more than 100 entries). -/
def isDuplicateMessage (messageId : String) (now : Nat) (c : DedupeCache) :
    Bool × DedupeCache :=
  if (mapGet c messageId).isSome then
    (true, c)
  else
    let c1 := mapSet c messageId now
    let c2 := if c1.length > 100 then cleanupDedupeCache now c1 else c1
    (false, c2)

/-! ## Expiry check (gateway.ts lines 54–65) -/

/-- Modelled from the platform builtin `parseInt(s, 10)`: skip leading
whitespace, read an optional sign then a maximal run of decimal digits;
`none` stands for `NaN` (no digits). -/
def jsParseInt10 (s : String) : Option Int :=
  let cs := s.data.dropWhile (fun ch => ch = ' ' ∨ ch = '\t' ∨ ch = '\n' ∨ ch = '\r')
  let signAndRest : Int × List Char :=
    match cs with
    | '-' :: r => (-1, r)
    | '+' :: r => (1, r)
    | _ => (1, cs)
  let digits := signAndRest.2.takeWhile Char.isDigit
  if digits = [] then none
  else some (signAndRest.1 * (digits.foldl (fun acc ch => acc * 10 + (ch.toNat - 48)) 0 : Nat))

/-- `isMessageExpired` (gateway.ts lines 54–65).  `createTimeMs` is the raw
`string | undefined` field; `!createTimeMs` in JS is true for `undefined`
and for the empty string, and `isNaN(parseInt(..))` maps to `jsParseInt10
= none`.  The subtraction `now - createTime` is JS number arithmetic, so the
comparison is over `Int`. -/
def isMessageExpired (now : Nat) (createTimeMs : Option String) : Bool :=
  match createTimeMs with
  | none => false
  | some s =>
    if s = "" then false
    else
      match jsParseInt10 s with
      | none => false
      | some createTime => decide ((now : Int) - createTime > MESSAGE_EXPIRE_TTL_MS)

/-! ## JSON values and a model of `JSON.parse` / `JSON.stringify`

The source calls the platform builtin `JSON.parse` on message content.
The model below is a recursive-descent parser over the character list,
simplified in ways no claim touches: `\uXXXX` escapes are rejected rather
than decoded, and number tokens are captured as their lexeme without
validating the grammar. -/

inductive Json where
  | null
  | boolean (b : Bool)
  | num (lexeme : String)
  | str (s : String)
  | arr (elems : List Json)
  | obj (members : List (String × Json))

/-- The characters `JSON.parse` skips between tokens. -/
def jsonWs (ch : Char) : Bool :=
  decide (ch = ' ' ∨ ch = '\t' ∨ ch = '\n' ∨ ch = '\r')

def skipWs : List Char → List Char
  | [] => []
  | ch :: rest => if jsonWs ch then skipWs rest else ch :: rest

/-- Opening curly bracket. -/
def lbraceChar : Char := Char.ofNat 123

/-- Closing curly bracket. -/
def rbraceChar : Char := Char.ofNat 125

/-- Body of a JSON string literal after the opening quote; returns the decoded
string and the input past the closing quote. -/
def parseStringBody : List Char → String → Option (String × List Char)
  | [], _ => none
  | ch :: rest, acc =>
    if ch = '"' then some (acc, rest)
    else if ch = '\\' then
      match rest with
      | [] => none
      | e :: rest2 =>
        let decoded : Option Char :=
          if e = '"' then some '"'
          else if e = '\\' then some '\\'
          else if e = '/' then some '/'
          else if e = 'n' then some '\n'
          else if e = 't' then some '\t'
          else if e = 'r' then some '\r'
          else if e = 'b' then some (Char.ofNat 8)
          else if e = 'f' then some (Char.ofNat 12)
          else none
        match decoded with
        | some d => parseStringBody rest2 (acc.push d)
        | none => none
    else parseStringBody rest (acc.push ch)

/-- Characters that may make up a number token. -/
def jsonNumChar (ch : Char) : Bool :=
  ch.isDigit || decide (ch = '-' ∨ ch = '+' ∨ ch = '.' ∨ ch = 'e' ∨ ch = 'E')

/-- Take a maximal number token as its lexeme. -/
def parseNumberTok (cs : List Char) : Option (Json × List Char) :=
  let tok := cs.takeWhile jsonNumChar
  if tok = [] then none
  else some (Json.num (String.mk tok), cs.drop tok.length)

/-- Drop the literal `lit` from the front of `cs`, or fail. -/
def dropLit : List Char → List Char → Option (List Char)
  | [], cs => some cs
  | _ :: _, [] => none
  | l :: ls, ch :: cs => if ch = l then dropLit ls cs else none

/-- Parser mode: a whole value, the members of an object (accumulated so
far), or the elements of an array. -/
inductive PMode where
  | value
  | members (acc : List (String × Json))
  | elements (acc : List Json)

/-- Recursive-descent JSON parser, fueled so that the recursion is
structural on the first argument. -/
def parseJ : Nat → PMode → List Char → Option (Json × List Char)
  | 0, _, _ => none
  | fuel + 1, PMode.value, cs =>
    match skipWs cs with
    | [] => none
    | ch :: rest =>
      if ch = lbraceChar then
        match skipWs rest with
        | [] => none
        | d :: rest2 =>
          if d = rbraceChar then some (Json.obj [], rest2)
          else parseJ fuel (PMode.members []) (d :: rest2)
      else if ch = '[' then
        match skipWs rest with
        | [] => none
        | d :: rest2 =>
          if d = ']' then some (Json.arr [], rest2)
          else parseJ fuel (PMode.elements []) (d :: rest2)
      else if ch = '"' then
        match parseStringBody rest "" with
        | some (s, rest2) => some (Json.str s, rest2)
        | none => none
      else if ch = 'n' then
        match dropLit ['u', 'l', 'l'] rest with
        | some rest2 => some (Json.null, rest2)
        | none => none
      else if ch = 't' then
        match dropLit ['r', 'u', 'e'] rest with
        | some rest2 => some (Json.boolean true, rest2)
        | none => none
      else if ch = 'f' then
        match dropLit ['a', 'l', 's', 'e'] rest with
        | some rest2 => some (Json.boolean false, rest2)
        | none => none
      else parseNumberTok (ch :: rest)
  | fuel + 1, PMode.members acc, cs =>
    match skipWs cs with
    | [] => none
    | ch :: rest =>
      if ch = '"' then
        match parseStringBody rest "" with
        | some (key, rest2) =>
          match skipWs rest2 with
          | ':' :: rest3 =>
            match parseJ fuel PMode.value rest3 with
            | some (v, rest4) =>
              match skipWs rest4 with
              | [] => none
              | d :: rest5 =>
                if d = ',' then parseJ fuel (PMode.members (acc ++ [(key, v)])) rest5
                else if d = rbraceChar then some (Json.obj (acc ++ [(key, v)]), rest5)
                else none
            | none => none
          | _ => none
        | none => none
      else none
  | fuel + 1, PMode.elements acc, cs =>
    match parseJ fuel PMode.value cs with
    | some (v, rest) =>
      match skipWs rest with
      | [] => none
      | d :: rest2 =>
        if d = ',' then parseJ fuel (PMode.elements (acc ++ [v])) rest2
        else if d = ']' then some (Json.arr (acc ++ [v]), rest2)
        else none
    | none => none

/-- Modelled from the platform builtin `JSON.parse`: `none` stands for a
thrown `SyntaxError`. -/
def jsonParse (s : String) : Option Json :=
  match parseJ (s.length + 1) PMode.value s.data with
  | some (v, rest) => if skipWs rest = [] then some v else none
  | none => none

/-! ## Event payload and normalized message (types.ts, gateway.ts) -/

/-- The fields of `data.message` read by the handler (gateway.ts lines
106–142); each is `string | undefined` in the platform envelope. -/
structure RawMessage where
  message_id : Option String
  create_time : Option String
  chat_id : Option String
  chat_type : Option String
  message_type : Option String
  content : Option String

/-- `data.sender.sender_id` with its `open_id` field. -/
structure SenderId where
  open_id : Option String

structure EventSender where
  sender_id : Option SenderId

/-- The inbound event envelope `data` as read by the handler. -/
structure EventData where
  message : Option RawMessage
  sender : Option EventSender

/-- `FeishuMessage` (types.ts lines 20–28); `chatType` keeps the literal
union `"p2p" | "group"` as a string, `text` is the optional extracted
text field. -/
structure FeishuMessage where
  messageId : String
  chatId : String
  chatType : String
  senderId : String
  messageType : String
  content : String
  text : Option String

/-- JS template-literal rendering of a `string | undefined` value:
`undefined` prints as the text `undefined`. -/
def jsTemplate (o : Option String) : String :=
  match o with
  | none => "undefined"
  | some s => s

/-- `parsed.text` on a decoded JSON value: present only when the value is an
object with a `text` member; the interface type `text?: string` (types.ts
line 27) makes the extracted field a string. -/
def getTextField : Json → Option String
  | Json.obj kvs =>
    match mapGet kvs "text" with
    | some (Json.str s) => some s
    | _ => none
  | _ => none

/-- Normalization of one raw event into a `FeishuMessage` (gateway.ts lines
125–142): field defaulting with `|| ""`, `chat_type === "p2p" ? "p2p" :
"group"`, optional-chained sender id, and — for `text` messages only —
`JSON.parse` of the content with parse failure ignored. -/
def normalizeMessage (data : EventData) (msg : RawMessage) (messageId : String) :
    FeishuMessage :=
  let base : FeishuMessage := {
    messageId := messageId
    chatId := (msg.chat_id).getD ""
    chatType := if msg.chat_type = some "p2p" then "p2p" else "group"
    senderId := (((data.sender).bind EventSender.sender_id).bind SenderId.open_id).getD ""
    messageType := (msg.message_type).getD ""
    content := (msg.content).getD ""
    text := none }
  if base.messageType = "text" then
    match jsonParse base.content with
    | some parsed => { base with text := getTextField parsed }
    | none => base
  else base

/-! ## The inbound event handler (gateway.ts lines 106–155) -/

/-- A line written through the gateway logger. -/
inductive LogEntry where
  | info (msg : String)
  | error (msg : String)

/-- The admission path of the `im.message.receive_v1` handler, up to (and
excluding) the `setImmediate` continuation: from the current time, dedupe
cache and event payload it produces the updated cache, the log lines
written synchronously, and the normalized message scheduled for dispatch
(`none` when the event is dropped).  The handler's return value is `{}` in
every branch; dispatch runs on a later turn (see `processEvent`). -/
def handleEvent (now : Nat) (c : DedupeCache) (data : EventData) :
    DedupeCache × List LogEntry × Option FeishuMessage :=
  match data.message with
  | none => (c, [], none)
  | some msg =>
    let messageId := (msg.message_id).getD ""
    let createTime := msg.create_time
    let dup := isDuplicateMessage messageId now c
    if dup.1 then
      (dup.2, [], none)
    else if isMessageExpired now createTime then
      (dup.2,
       [LogEntry.info ("Skipping expired message " ++ jsTemplate msg.content ++
          ", create_time: " ++ jsTemplate createTime)],
       none)
    else
      (dup.2, [], some (normalizeMessage data msg messageId))

/-- The `setImmediate` continuation (gateway.ts lines 145–151): run the
`onMessage` callback on the scheduled message; an error is caught on that
turn and logged, never rethrown.  The callback's outcome is modelled as an
`Except` value. -/
def runDispatchTurn (onMessage : FeishuMessage → Except String Unit)
    (fm : FeishuMessage) : List LogEntry :=
  match onMessage fm with
  | Except.ok _ => []
  | Except.error e => [LogEntry.error ("Error handling message: " ++ e)]

/-- The handler's acknowledgment value: the source returns `{}` on every
path (gateway.ts lines 108, 115, 122, 154). -/
inductive Ack where
  | emptyObj

/-- Whole-event processing: the admission path runs first and its
acknowledgment is fixed before the dispatch turn runs; the dispatch turn
only appends log lines. -/
def processEvent (onMessage : FeishuMessage → Except String Unit)
    (now : Nat) (c : DedupeCache) (data : EventData) :
    DedupeCache × List LogEntry × Ack :=
  let admitted := handleEvent now c data
  match admitted.2.2 with
  | none => (admitted.1, admitted.2.1, Ack.emptyObj)
  | some fm => (admitted.1, admitted.2.1 ++ runDispatchTurn onMessage fm, Ack.emptyObj)

/-! ## Connection registry and lifecycle (gateway.ts lines 80–185) -/

/-- `ResolvedFeishuAccount` (types.ts lines 14–18). -/
structure ResolvedFeishuAccount where
  accountId : String
  appId : String
  appSecret : String

/-- A `lark.WSClient` as `stopGateway` sees it: an identity, and the two
optional teardown methods probed with `typeof ... === "function"`.  A
present method carries the outcome of invoking it (`Except.error` models a
thrown exception). -/
structure WSClient where
  id : Nat
  close : Option (Except String Unit)
  stop : Option (Except String Unit)

/-- The `wsClientCache` map (gateway.ts line 11). -/
abbrev WsRegistry := List (String × WSClient)

/-- Which teardown operation `stopGateway` invoked. -/
inductive CloseOp where
  | primaryClose
  | secondaryStop

/-- The body of the `try` block in `stopGateway` (gateway.ts lines 173–179):
call `close()` if it is a function, else `stop()` if it is a function; the
pair is the outcome of the call and the trace of operations invoked. -/
def closeBody (ws : WSClient) : Except String Unit × List CloseOp :=
  match ws.close with
  | some outcome => (outcome, [CloseOp.primaryClose])
  | none =>
    match ws.stop with
    | some outcome => (outcome, [CloseOp.secondaryStop])
    | none => (Except.ok (), [])

/-- `stopGateway` (gateway.ts lines 169–185): look up the handle; if present
run the teardown body, discard its outcome (`catch` swallows any error),
and delete the registry entry unconditionally; if absent do nothing.  The
function is total — success or failure of the close call never escapes. -/
def stopGateway (reg : WsRegistry) (accountId : String) : WsRegistry × List CloseOp :=
  match mapGet reg accountId with
  | none => (reg, [])
  | some ws =>
    let attempted := closeBody ws
    (mapDelete reg accountId, attempted.2)

/-- `startGateway` (gateway.ts lines 80–164), restricted to its effect on the
registry: if a handle exists for the account id it is stopped (and removed)
first, then the freshly constructed client is stored under the account id.
The returned trace is the teardown trace of the displaced handle. -/
def startGateway (reg : WsRegistry) (account : ResolvedFeishuAccount)
    (fresh : WSClient) : WsRegistry × List CloseOp :=
  let cacheKey := account.accountId
  let afterExisting :=
    match mapGet reg cacheKey with
    | some _ => stopGateway reg cacheKey
    | none => (reg, [])
  (mapSet afterExisting.1 cacheKey fresh, afterExisting.2)

/-! ## Outbound client (client.ts) -/

/-- The platform response as read by the client: `result.code` and
`result.msg`. -/
structure ApiResult where
  code : Int
  msg : Option String

/-- The `{ ok, error? }` result shape of both send functions. -/
structure SendResult where
  ok : Bool
  error : Option String

/-- The request body built by `sendTextMessage` (client.ts lines 42–51). -/
structure CreateMessageRequest where
  receive_id_type : String
  receive_id : String
  msg_type : String
  content : String

/-- The request body built by `replyTextMessage` (client.ts lines 74–82). -/
structure ReplyMessageRequest where
  message_id : String
  msg_type : String
  content : String

/-- Modelled from the platform builtin `JSON.stringify` on `{ text }`:
escape backslashes and quotes inside the string. -/
def jsonEscape (s : String) : String :=
  s.data.foldl
    (fun acc ch =>
      if ch = '"' then acc ++ "\\\""
      else if ch = '\\' then acc ++ "\\\\"
      else acc.push ch)
    ""

/-- `JSON.stringify({ text })`. -/
def stringifyTextEnvelope (text : String) : String :=
  "\x7b\"text\":\"" ++ jsonEscape text ++ "\"\x7d"

/-- Shared result folding of both send functions (client.ts lines 53–60 and
84–91): `code === 0` yields success, a non-zero code carries `result.msg`,
and a thrown transport error `e` is caught and rendered with `String(e)`
(the model's exceptions are already strings). -/
def foldSendOutcome (callOutcome : Except String ApiResult) : SendResult :=
  match callOutcome with
  | Except.ok result =>
    if result.code = 0 then { ok := true, error := none }
    else { ok := false, error := result.msg }
  | Except.error e => { ok := false, error := some e }

/-- `sendTextMessage` (client.ts lines 34–61): build the create-message
request for `chatId`/`text` and fold the transport outcome (`callApi`,
the modelled `client.im.v1.message.create`) into `{ ok, error? }`.
The account argument only selects the cached client. -/
def sendTextMessage (_account : ResolvedFeishuAccount) (chatId : String)
    (text : String) (callApi : CreateMessageRequest → Except String ApiResult) :
    SendResult :=
  let req : CreateMessageRequest := {
    receive_id_type := "chat_id"
    receive_id := chatId
    msg_type := "text"
    content := stringifyTextEnvelope text }
  foldSendOutcome (callApi req)

/-- `replyTextMessage` (client.ts lines 66–92): build the reply request for
`messageId`/`text` and fold the transport outcome the same way. -/
def replyTextMessage (_account : ResolvedFeishuAccount) (messageId : String)
    (text : String) (callApi : ReplyMessageRequest → Except String ApiResult) :
    SendResult :=
  let req : ReplyMessageRequest := {
    message_id := messageId
    msg_type := "text"
    content := stringifyTextEnvelope text }
  foldSendOutcome (callApi req)

/-! ## Channel onMessage callback (channel.ts lines 216–250) -/

/-- `MsgContext` (msg-context.ts) as constructed by the channel. -/
structure MsgContext where
  From : String
  Body : String
  AccountId : String
  Provider : String
  Surface : String
  SessionKey : String
  To : String
  ChatType : String

/-- JS falsiness of the optional `message.text` field: `undefined` and the
empty string are falsy. -/
def jsFalsyText (o : Option String) : Bool :=
  match o with
  | none => true
  | some s => decide (s = "")

/-- The gateway `onMessage` callback installed by the channel (channel.ts
lines 216–250), up to the dispatcher call: returns the `MsgContext` handed
to `dispatchReplyWithBufferedBlockDispatcher`, or `none` when the early
return fires (`message.messageType !== "text" || !message.text`), in which
case neither the dispatcher nor any outbound send runs. -/
def channelOnMessage (account : ResolvedFeishuAccount) (message : FeishuMessage) :
    Option MsgContext :=
  if message.messageType ≠ "text" ∨ jsFalsyText message.text then none
  else
    some {
      From := message.senderId
      Body := (message.text).getD ""
      AccountId := account.accountId
      Provider := "feishu"
      Surface := "feishu"
      SessionKey := "feishu:" ++ account.accountId ++ ":" ++ message.chatId
      To := message.chatId
      ChatType := if message.chatType = "p2p" then "direct" else "group" }

/-- A sequence of dedupe checks, folding the cache through each call. -/
def runDedupe : DedupeCache → List (String × Nat) → DedupeCache
  | c, [] => c
  | c, (m, t) :: rest => runDedupe (isDuplicateMessage m t c).2 rest

/-- The key list of the connection-handle registry. -/
def regKeys (reg : WsRegistry) : List String := reg.map Prod.fst

/-! ## Basic lemmas about the association-list map -/

theorem mapGet_mapSet_self {α : Type} (c : List (String × α)) (k : String) (v : α) :
    mapGet (mapSet c k v) k = some v := by
  induction c with
  | nil => simp [mapSet, mapGet]
  | cons e rest ih =>
    obtain ⟨k', v'⟩ := e
    by_cases hk : k' = k
    · subst hk
      simp [mapSet, mapGet]
    · simp [mapSet, hk, mapGet, ih]

theorem mapGet_append_of_none {α : Type} (c d : List (String × α)) (k : String)
    (h : mapGet c k = none) : mapGet (c ++ d) k = mapGet d k := by
  induction c with
  | nil => simp
  | cons e rest ih =>
    obtain ⟨k', v'⟩ := e
    by_cases hk : k' = k
    · subst hk; simp [mapGet] at h
    · simp only [mapGet, if_neg hk] at h
      simpa [mapGet, if_neg hk] using ih h

theorem mapGet_append_left {α : Type} (c d : List (String × α)) (k : String) (v : α)
    (h : mapGet c k = some v) : mapGet (c ++ d) k = some v := by
  induction c with
  | nil => simp [mapGet] at h
  | cons e rest ih =>
    obtain ⟨k', v'⟩ := e
    by_cases hk : k' = k
    · subst hk
      simp only [mapGet, if_pos rfl] at h
      simpa [mapGet] using h
    · simp only [mapGet, if_neg hk] at h
      simpa [mapGet, if_neg hk] using ih h

theorem mapSet_of_get_none {α : Type} (c : List (String × α)) (k : String) (v : α)
    (h : mapGet c k = none) : mapSet c k v = c ++ [(k, v)] := by
  induction c with
  | nil => simp [mapSet]
  | cons e rest ih =>
    obtain ⟨k', v'⟩ := e
    by_cases hk : k' = k
    · subst hk; simp [mapGet] at h
    · simp only [mapGet, if_neg hk] at h
      simp [mapSet, hk, ih h]

theorem mapGet_filter_keep {α : Type} (p : String × α → Bool) (c : List (String × α))
    (k : String) (v : α) (h : mapGet c k = some v) (hp : p (k, v) = true) :
    mapGet (c.filter p) k = some v := by
  induction c with
  | nil => simp [mapGet] at h
  | cons e rest ih =>
    obtain ⟨k', v'⟩ := e
    by_cases hk : k' = k
    · subst hk
      have hv : v' = v := by simpa [mapGet] using h
      subst hv
      simp [List.filter, hp, mapGet]
    · simp only [mapGet, if_neg hk] at h
      cases hc : p (k', v') with
      | true => simp [List.filter, hc, mapGet, hk, ih h]
      | false => simp [List.filter, hc, ih h]

theorem mapGet_eq_none_of_not_mem {α : Type} (c : List (String × α)) (k : String)
    (h : k ∉ c.map Prod.fst) : mapGet c k = none := by
  induction c with
  | nil => rfl
  | cons e rest ih =>
    obtain ⟨k', v'⟩ := e
    simp only [List.map_cons, List.mem_cons] at h
    push_neg at h
    have hne : ¬ k' = k := fun hh => h.1 hh.symm
    simp [mapGet, hne, ih h.2]

theorem mapGet_filter_none {α : Type} (p : String × α → Bool) (c : List (String × α))
    (k : String) (h : k ∉ c.map Prod.fst) : mapGet (c.filter p) k = none := by
  apply mapGet_eq_none_of_not_mem
  intro hmem
  rcases List.mem_map.mp hmem with ⟨e, he, hek⟩
  exact h (List.mem_map.mpr ⟨e, List.mem_of_mem_filter he, hek⟩)

theorem mapGet_mapDelete_self {α : Type} (c : List (String × α)) (k : String) :
    mapGet (mapDelete c k) k = none := by
  induction c with
  | nil => rfl
  | cons e rest ih =>
    obtain ⟨k', v'⟩ := e
    by_cases hk : k' = k
    · subst hk
      simpa [mapDelete, List.filter] using ih
    · simpa [mapDelete, List.filter, hk, mapGet] using ih

theorem mem_keys_mapSet {α : Type} (c : List (String × α)) (k x : String) (v : α)
    (h : x ∈ (mapSet c k v).map Prod.fst) : x ∈ c.map Prod.fst ∨ x = k := by
  induction c with
  | nil => simpa [mapSet] using h
  | cons e rest ih =>
    obtain ⟨k', v'⟩ := e
    by_cases hk : k' = k
    · subst hk
      left
      simpa [mapSet] using h
    · simp only [mapSet, if_neg hk, List.map_cons, List.mem_cons] at h
      rcases h with h | h
      · exact Or.inl (by simp [h])
      · rcases ih h with h' | h'
        · exact Or.inl (by simp [h'])
        · exact Or.inr h'

theorem nodup_keys_mapSet {α : Type} (c : List (String × α)) (k : String) (v : α)
    (h : (c.map Prod.fst).Nodup) : ((mapSet c k v).map Prod.fst).Nodup := by
  induction c with
  | nil => simp [mapSet]
  | cons e rest ih =>
    obtain ⟨k', v'⟩ := e
    simp only [List.map_cons, List.nodup_cons] at h
    by_cases hk : k' = k
    · subst hk
      simpa [mapSet] using h
    · simp only [mapSet, if_neg hk, List.map_cons, List.nodup_cons]
      refine ⟨fun hmem => ?_, ih h.2⟩
      rcases mem_keys_mapSet rest k k' v hmem with h' | h'
      · exact h.1 h'
      · exact hk h'

theorem nodup_keys_filter {α : Type} (p : String × α → Bool) (c : List (String × α))
    (h : (c.map Prod.fst).Nodup) : ((c.filter p).map Prod.fst).Nodup :=
  ((List.filter_sublist c).map Prod.fst).nodup h

/-! ## Dedupe-cache preservation lemmas -/

/-- One dedupe check — for any id, at any time still within the TTL of the
tracked entry — leaves that entry in place with its first-seen timestamp. -/
theorem dedupe_step_preserves_entry (c : DedupeCache) (m : String) (t0 : Nat)
    (m' : String) (t : Nat) (hget : mapGet c m = some t0)
    (hfresh : t - t0 ≤ MESSAGE_DEDUPE_TTL_MS) :
    mapGet (isDuplicateMessage m' t c).2 m = some t0 := by
  unfold isDuplicateMessage
  by_cases hdup : (mapGet c m').isSome
  · simp [hdup, hget]
  · simp only [hdup, if_false, Bool.false_eq_true]
    have hnone : mapGet c m' = none := by
      cases hc : mapGet c m' with
      | none => rfl
      | some w => rw [hc] at hdup; simp at hdup
    rw [mapSet_of_get_none c m' t hnone]
    have happ : mapGet (c ++ [(m', t)]) m = some t0 := mapGet_append_left c _ m t0 hget
    split
    · exact mapGet_filter_keep _ _ m t0 happ (by simp [Nat.not_lt_of_le hfresh])
    · exact happ

/-- A whole sequence of dedupe checks, all within the TTL of the tracked
entry, leaves the entry in place. -/
theorem runDedupe_preserves_entry (calls : List (String × Nat)) (c : DedupeCache)
    (m : String) (t0 : Nat) (hget : mapGet c m = some t0)
    (hfresh : ∀ p ∈ calls, p.2 - t0 ≤ MESSAGE_DEDUPE_TTL_MS) :
    mapGet (runDedupe c calls) m = some t0 := by
  induction calls generalizing c with
  | nil => simpa [runDedupe] using hget
  | cons p rest ih =>
    obtain ⟨m', t⟩ := p
    simp only [runDedupe]
    refine ih _ (dedupe_step_preserves_entry c m t0 m' t hget ?_) ?_
    · exact hfresh (m', t) (List.mem_cons_self _ _)
    · intro q hq
      exact hfresh q (List.mem_cons_of_mem _ hq)

/-- If the cache tracks `m` with a timestamp that has fallen out of the TTL
at time `t1`, cleanup at `t1` removes `m` entirely (keys are distinct, as
they are in a JS `Map`). -/
theorem mapGet_cleanup_stale (c : DedupeCache) (m : String) (t0 t1 : Nat)
    (hnd : (c.map Prod.fst).Nodup) (hget : mapGet c m = some t0)
    (hstale : t1 - t0 > MESSAGE_DEDUPE_TTL_MS) :
    mapGet (cleanupDedupeCache t1 c) m = none := by
  induction c with
  | nil => simp [mapGet] at hget
  | cons e rest ih =>
    obtain ⟨k, v⟩ := e
    simp only [List.map_cons, List.nodup_cons] at hnd
    by_cases hk : k = m
    · subst hk
      have hv : v = t0 := by simpa [mapGet] using hget
      have hdrop : (!decide (t1 - v > MESSAGE_DEDUPE_TTL_MS)) = false := by
        rw [hv]
        simp [hstale]
      have hrest := mapGet_filter_none
        (fun e => !decide (t1 - e.2 > MESSAGE_DEDUPE_TTL_MS)) rest k hnd.1
      simpa [cleanupDedupeCache, List.filter_cons, hdrop] using hrest
    · have hget' : mapGet rest m = some t0 := by simpa [mapGet, hk] using hget
      have ih' := ih hnd.2 hget'
      cases hp : (!decide (t1 - v > MESSAGE_DEDUPE_TTL_MS)) with
      | false =>
        simpa [cleanupDedupeCache, List.filter_cons, hp] using ih'
      | true =>
        simpa [cleanupDedupeCache, List.filter_cons, hp, mapGet, hk] using ih'

/-! ## Claim theorems -/

/-- C1: For every event id, the first `isDuplicateMessage` call returns false
and records the id with its first-seen time; every later call with the same
id within the 60-second TTL — regardless of which other ids were checked in
between (all within the TTL, as call times only move forward) — returns
true; consequently a second arrival of the same id within the TTL is
dropped by the handler with no dispatch. -/
theorem dedupe_first_false_then_true (c : DedupeCache) (m : String) (t0 t1 : Nat)
    (calls : List (String × Nat)) (data : EventData) (msg : RawMessage)
    (hnew : mapGet c m = none)
    (hcalls : ∀ p ∈ calls, p.2 - t0 ≤ MESSAGE_DEDUPE_TTL_MS)
    (ht1 : t1 - t0 ≤ MESSAGE_DEDUPE_TTL_MS)
    (hdata : data.message = some msg)
    (hmid : (msg.message_id).getD "" = m) :
    (isDuplicateMessage m t0 c).1 = false ∧
    mapGet (isDuplicateMessage m t0 c).2 m = some t0 ∧
    (isDuplicateMessage m t1 (runDedupe (isDuplicateMessage m t0 c).2 calls)).1 = true ∧
    handleEvent t1 (runDedupe (isDuplicateMessage m t0 c).2 calls) data =
      (runDedupe (isDuplicateMessage m t0 c).2 calls, [], none) := by
  have hfalse : (isDuplicateMessage m t0 c).1 = false := by
    simp [isDuplicateMessage, hnew]
  have hrec : mapGet (isDuplicateMessage m t0 c).2 m = some t0 := by
    unfold isDuplicateMessage
    rw [hnew]
    simp only [Option.isSome_none, Bool.false_eq_true, if_false]
    rw [mapSet_of_get_none c m t0 hnew]
    have happ : mapGet (c ++ [(m, t0)]) m = some t0 := by
      rw [mapGet_append_of_none c _ m hnew]
      simp [mapGet]
    split
    · exact mapGet_filter_keep _ _ m t0 happ (by simp)
    · exact happ
  have hsurv : mapGet (runDedupe (isDuplicateMessage m t0 c).2 calls) m = some t0 :=
    runDedupe_preserves_entry calls _ m t0 hrec hcalls
  have hgen : ∀ cc : DedupeCache, mapGet cc m = some t0 →
      isDuplicateMessage m t1 cc = (true, cc) := by
    intro cc hcc
    simp [isDuplicateMessage, hcc]
  have hpair := hgen _ hsurv
  refine ⟨hfalse, hrec, by rw [hpair], ?_⟩
  simp [handleEvent, hdata, hmid, hpair]

/-- Witness for C1: event id `E1` first seen at time 0 is admitted; arriving
again 1 second later it is reported duplicate and the handler drops it with
no log and no dispatch. -/
theorem dedupe_first_false_then_true_witness :
    (isDuplicateMessage "E1" 0 []).1 = false ∧
    mapGet (isDuplicateMessage "E1" 0 []).2 "E1" = some 0 ∧
    (isDuplicateMessage "E1" 1000 (runDedupe (isDuplicateMessage "E1" 0 []).2 [])).1 = true ∧
    handleEvent 1000 (runDedupe (isDuplicateMessage "E1" 0 []).2 [])
      ⟨some ⟨some "E1", some "0", some "oc_1", some "p2p", some "text", some "raw"⟩, none⟩ =
      (runDedupe (isDuplicateMessage "E1" 0 []).2 [], [], none) :=
  dedupe_first_false_then_true [] "E1" 0 1000 []
    ⟨some ⟨some "E1", some "0", some "oc_1", some "p2p", some "text", some "raw"⟩, none⟩
    ⟨some "E1", some "0", some "oc_1", some "p2p", some "text", some "raw"⟩
    rfl (by intro p hp; exact absurd hp (List.not_mem_nil p)) (by decide) rfl rfl

/-- C2: `isMessageExpired` returns true exactly when the creation timestamp
is present, parses to a number, and `now` minus that number exceeds the
30-minute window; an absent or non-numeric timestamp yields false. -/
theorem isMessageExpired_spec (now : Nat) :
    isMessageExpired now none = false ∧
    (∀ s, jsParseInt10 s = none → isMessageExpired now (some s) = false) ∧
    (∀ s t, jsParseInt10 s = some t →
      isMessageExpired now (some s) = decide ((now : Int) - t > MESSAGE_EXPIRE_TTL_MS)) := by
  refine ⟨rfl, ?_, ?_⟩
  · intro s hs
    by_cases hemp : s = ""
    · simp [isMessageExpired, hemp]
    · simp [isMessageExpired, hemp, hs]
  · intro s t hs
    have hemp : s ≠ "" := by
      intro h
      subst h
      exact Option.noConfusion (hs.symm.trans rfl)

    simp [isMessageExpired, hemp, hs]

/-- Witness for C2: an absent timestamp and the non-numeric `abc` are never
expired; a message created at epoch 0 is expired when `now` is one
millisecond past the 30-minute window and not expired at exactly the
window. -/
theorem isMessageExpired_spec_witness :
    isMessageExpired 1800001 none = false ∧
    isMessageExpired 1800001 (some "abc") = false ∧
    isMessageExpired 1800001 (some "0") = true ∧
    isMessageExpired 1800000 (some "0") = false := by
  have h := isMessageExpired_spec 1800001
  have h2 := isMessageExpired_spec 1800000
  refine ⟨h.1, h.2.1 "abc" rfl, ?_, ?_⟩
  · rw [h.2.2 "0" 0 rfl]
    decide
  · rw [h2.2.2 "0" 0 rfl]
    decide

/-- C3: the handler checks dedupe before staleness: a duplicate event is
dropped with no log line and no dispatch whatever its timestamp says, while
a non-duplicate but expired event is dropped with one informational log
line carrying the event's content. -/
theorem handleEvent_check_order (now : Nat) (c : DedupeCache) (data : EventData)
    (msg : RawMessage) (hdata : data.message = some msg) :
    ((mapGet c ((msg.message_id).getD "")).isSome = true →
       handleEvent now c data = (c, [], none)) ∧
    (mapGet c ((msg.message_id).getD "") = none →
     isMessageExpired now msg.create_time = true →
       handleEvent now c data =
         ((isDuplicateMessage ((msg.message_id).getD "") now c).2,
          [LogEntry.info ("Skipping expired message " ++ jsTemplate msg.content ++
             ", create_time: " ++ jsTemplate msg.create_time)],
          none)) := by
  constructor
  · intro hdup
    have hpair : isDuplicateMessage ((msg.message_id).getD "") now c = (true, c) := by
      simp [isDuplicateMessage, hdup]
    simp [handleEvent, hdata, hpair]
  · intro hnew hexp
    have hfalse : (isDuplicateMessage ((msg.message_id).getD "") now c).1 = false := by
      simp [isDuplicateMessage, hnew]
    simp [handleEvent, hdata, hfalse, hexp]

/-- Witness for C3: a duplicate of `E1` is dropped silently even though its
timestamp is 30 minutes stale, and a fresh but stale `E2` is dropped with
the informational log line carrying its content. -/
theorem handleEvent_check_order_witness :
    handleEvent 1800001 [("E1", 5)]
      ⟨some ⟨some "E1", some "0", none, none, some "text", some "raw"⟩, none⟩ =
      ([("E1", 5)], [], none) ∧
    handleEvent 1800001 []
      ⟨some ⟨some "E2", some "0", none, none, some "text", some "raw"⟩, none⟩ =
      ((isDuplicateMessage "E2" 1800001 []).2,
       [LogEntry.info "Skipping expired message raw, create_time: 0"], none) := by
  constructor
  · exact (handleEvent_check_order 1800001 [("E1", 5)] _ _ rfl).1 (by decide)
  · exact (handleEvent_check_order 1800001 [] _
      ⟨some "E2", some "0", none, none, some "text", some "raw"⟩ rfl).2 rfl (by decide)

/-- C4: starting the gateway for an account that already has a registered
handle first runs `stopGateway` — so the old handle is removed (and its
teardown attempted) before the new handle is stored; the new handle is then
the binding for the account id, and the registry keeps at most one handle
per account id (distinct keys) at every point, including the intermediate
registry between removal and store. -/
theorem startGateway_registry_invariant (reg : WsRegistry)
    (account : ResolvedFeishuAccount) (fresh old : WSClient)
    (hold : mapGet reg account.accountId = some old) :
    startGateway reg account fresh =
      (mapSet (mapDelete reg account.accountId) account.accountId fresh,
       (closeBody old).2) ∧
    mapGet (mapDelete reg account.accountId) account.accountId = none ∧
    mapGet (startGateway reg account fresh).1 account.accountId = some fresh ∧
    ((regKeys reg).Nodup →
      (regKeys (mapDelete reg account.accountId)).Nodup ∧
      (regKeys (startGateway reg account fresh).1).Nodup) ∧
    (∀ reg' : WsRegistry, (regKeys reg').Nodup →
      (regKeys (startGateway reg' account fresh).1).Nodup) := by
  have hstart : startGateway reg account fresh =
      (mapSet (mapDelete reg account.accountId) account.accountId fresh,
       (closeBody old).2) := by
    simp [startGateway, stopGateway, hold]
  have hnodupStart : ∀ reg' : WsRegistry, (regKeys reg').Nodup →
      (regKeys (startGateway reg' account fresh).1).Nodup := by
    intro reg' hnd
    cases hex : mapGet reg' account.accountId with
    | none =>
      simp only [startGateway, hex, regKeys]
      exact nodup_keys_mapSet reg' account.accountId fresh hnd
    | some ws =>
      simp only [startGateway, stopGateway, hex, regKeys]
      exact nodup_keys_mapSet _ account.accountId fresh
        (nodup_keys_filter _ reg' hnd)
  refine ⟨hstart, mapGet_mapDelete_self reg account.accountId, ?_, ?_, hnodupStart⟩
  · rw [hstart]
    exact mapGet_mapSet_self _ account.accountId fresh
  · intro hnd
    exact ⟨nodup_keys_filter _ reg hnd, hnodupStart reg hnd⟩

/-- Witness for C4: a registry holding handle 1 for account `default`;
starting again with handle 2 tears handle 1 down first and leaves handle 2
as the unique binding. -/
theorem startGateway_registry_invariant_witness :
    startGateway [("default", ⟨1, some (Except.ok ()), none⟩)] ⟨"default", "app", "sec"⟩
        ⟨2, none, none⟩ =
      (mapSet (mapDelete [("default", ⟨1, some (Except.ok ()), none⟩)] "default") "default"
        ⟨2, none, none⟩,
       (closeBody ⟨1, some (Except.ok ()), none⟩).2) ∧
    mapGet (mapDelete [("default", (⟨1, some (Except.ok ()), none⟩ : WSClient))] "default")
      "default" = none ∧
    mapGet (startGateway [("default", ⟨1, some (Except.ok ()), none⟩)]
      ⟨"default", "app", "sec"⟩ ⟨2, none, none⟩).1 "default" = some ⟨2, none, none⟩ := by
  have h := startGateway_registry_invariant [("default", ⟨1, some (Except.ok ()), none⟩)]
    ⟨"default", "app", "sec"⟩ ⟨2, none, none⟩ ⟨1, some (Except.ok ()), none⟩ rfl
  exact ⟨h.1, h.2.1, h.2.2.1⟩

/-- C5: `stopGateway` never raises: with no handle registered it is a no-op;
with a handle it invokes the `close` method when present, else falls back
to `stop` when present, the outcome of that call is discarded, and the
handle is removed from the registry even when the call failed. -/
theorem stopGateway_spec (reg : WsRegistry) (accountId : String) :
    (mapGet reg accountId = none → stopGateway reg accountId = (reg, [])) ∧
    (∀ ws : WSClient, mapGet reg accountId = some ws →
      (stopGateway reg accountId).1 = mapDelete reg accountId ∧
      mapGet (stopGateway reg accountId).1 accountId = none ∧
      (∀ o, ws.close = some o → (stopGateway reg accountId).2 = [CloseOp.primaryClose]) ∧
      (∀ o, ws.close = none → ws.stop = some o →
        (stopGateway reg accountId).2 = [CloseOp.secondaryStop]) ∧
      (ws.close = none → ws.stop = none → (stopGateway reg accountId).2 = [])) := by
  constructor
  · intro hnone
    simp [stopGateway, hnone]
  · intro ws hws
    have hstop : stopGateway reg accountId = (mapDelete reg accountId, (closeBody ws).2) := by
      simp [stopGateway, hws]
    refine ⟨by rw [hstop], ?_, ?_, ?_, ?_⟩
    · rw [hstop]
      exact mapGet_mapDelete_self reg accountId
    · intro o ho
      rw [hstop]
      simp [closeBody, ho]
    · intro o hc ho
      rw [hstop]
      simp [closeBody, hc, ho]
    · intro hc hs
      rw [hstop]
      simp [closeBody, hc, hs]

/-- Witness for C5: stopping an unregistered account is a no-op, and
stopping an account whose handle's `close` call throws still removes the
handle and reports the primary close attempt. -/
theorem stopGateway_spec_witness :
    stopGateway [("a", ⟨7, some (Except.error "boom"), none⟩)] "b" =
      ([("a", ⟨7, some (Except.error "boom"), none⟩)], []) ∧
    (stopGateway [("a", (⟨7, some (Except.error "boom"), none⟩ : WSClient))] "a").1 =
      mapDelete [("a", (⟨7, some (Except.error "boom"), none⟩ : WSClient))] "a" ∧
    mapGet (stopGateway [("a", (⟨7, some (Except.error "boom"), none⟩ : WSClient))] "a").1
      "a" = none ∧
    (stopGateway [("a", (⟨7, some (Except.error "boom"), none⟩ : WSClient))] "a").2 =
      [CloseOp.primaryClose] := by
  have h1 := (stopGateway_spec [("a", ⟨7, some (Except.error "boom"), none⟩)] "b").1 rfl
  have h2 := (stopGateway_spec [("a", ⟨7, some (Except.error "boom"), none⟩)] "a").2
    ⟨7, some (Except.error "boom"), none⟩ rfl
  exact ⟨h1, h2.1, h2.2.1, h2.2.2.1 (Except.error "boom") rfl⟩

/-- C6: `sendTextMessage` and `replyTextMessage` never throw across the
public contract — they are total functions into the `{ ok, error? }` shape:
a platform result code 0 yields `ok := true`, a non-zero code yields
`ok := false` with the platform's message, and a thrown transport error
yields `ok := false` with its string rendering, for every account, target
and text. -/
theorem send_reply_result_spec (account : ResolvedFeishuAccount)
    (chatId messageId text : String) :
    (∀ m, sendTextMessage account chatId text (fun _ => Except.ok ⟨0, m⟩) =
      ⟨true, none⟩) ∧
    (∀ code m, code ≠ 0 →
      sendTextMessage account chatId text (fun _ => Except.ok ⟨code, m⟩) = ⟨false, m⟩) ∧
    (∀ e, sendTextMessage account chatId text (fun _ => Except.error e) =
      ⟨false, some e⟩) ∧
    (∀ m, replyTextMessage account messageId text (fun _ => Except.ok ⟨0, m⟩) =
      ⟨true, none⟩) ∧
    (∀ code m, code ≠ 0 →
      replyTextMessage account messageId text (fun _ => Except.ok ⟨code, m⟩) = ⟨false, m⟩) ∧
    (∀ e, replyTextMessage account messageId text (fun _ => Except.error e) =
      ⟨false, some e⟩) := by
  refine ⟨?_, ?_, ?_, ?_, ?_, ?_⟩
  · intro m
    simp [sendTextMessage, foldSendOutcome]
  · intro code m hcode
    simp [sendTextMessage, foldSendOutcome, hcode]
  · intro e
    simp [sendTextMessage, foldSendOutcome]
  · intro m
    simp [replyTextMessage, foldSendOutcome]
  · intro code m hcode
    simp [replyTextMessage, foldSendOutcome, hcode]
  · intro e
    simp [replyTextMessage, foldSendOutcome]

/-- Witness for C6: platform code 0 yields success, code 1234 with message
`rate limited` yields `{ok := false, error := "rate limited"}`, and a thrown
transport error is folded into the same shape on the reply variant. -/
theorem send_reply_result_spec_witness :
    sendTextMessage ⟨"default", "app", "sec"⟩ "oc_1" "hello"
      (fun _ => Except.ok ⟨0, none⟩) = ⟨true, none⟩ ∧
    sendTextMessage ⟨"default", "app", "sec"⟩ "oc_1" "hello"
      (fun _ => Except.ok ⟨1234, some "rate limited"⟩) = ⟨false, some "rate limited"⟩ ∧
    replyTextMessage ⟨"default", "app", "sec"⟩ "om_1" "hello"
      (fun _ => Except.error "ECONNRESET") = ⟨false, some "ECONNRESET"⟩ := by
  have h := send_reply_result_spec ⟨"default", "app", "sec"⟩ "oc_1" "om_1" "hello"
  exact ⟨h.1 none, h.2.1 1234 (some "rate limited") (by decide), h.2.2.2.2.2 "ECONNRESET"⟩

/-- C7: for a text-type event, normalization parses the raw content as a
JSON envelope and extracts its text member: a successful parse sets the
text field from the envelope, a failed parse leaves the text field absent
while the event still normalizes; in particular content
`{"text":"hi"}` gives text `hi` and content `not-json` gives no text. -/
theorem normalize_text_extraction (data : EventData) (msg : RawMessage) (mid : String)
    (htype : msg.message_type = some "text") :
    (∀ parsed, jsonParse ((msg.content).getD "") = some parsed →
       (normalizeMessage data msg mid).text = getTextField parsed) ∧
    (jsonParse ((msg.content).getD "") = none →
       (normalizeMessage data msg mid).text = none) ∧
    (msg.content = some "\x7b\"text\":\"hi\"\x7d" →
       (normalizeMessage data msg mid).text = some "hi") ∧
    (msg.content = some "not-json" →
       (normalizeMessage data msg mid).text = none) := by
  have hparse : ∀ o, jsonParse ((msg.content).getD "") = o →
      (normalizeMessage data msg mid).text =
        (match o with
         | some parsed => getTextField parsed
         | none => none) := by
    intro o ho
    simp only [normalizeMessage, htype, Option.getD_some, if_pos]
    rw [ho]
    cases o <;> rfl
  refine ⟨fun parsed hp => hparse (some parsed) hp, fun hn => hparse none hn, ?_, ?_⟩
  · intro hc
    have : jsonParse ((msg.content).getD "") =
        some (Json.obj [("text", Json.str "hi")]) := by
      rw [hc]
      rfl
    rw [hparse _ this]
    rfl
  · intro hc
    have : jsonParse ((msg.content).getD "") = none := by
      rw [hc]
      rfl
    rw [hparse _ this]

/-- Witness for C7: two concrete text events, one whose content is the JSON
envelope `{"text":"hi"}` and one whose content is `not-json`. -/
theorem normalize_text_extraction_witness :
    (normalizeMessage ⟨some ⟨some "E1", none, some "oc_1", some "p2p", some "text",
        some "\x7b\"text\":\"hi\"\x7d"⟩, none⟩
      ⟨some "E1", none, some "oc_1", some "p2p", some "text",
        some "\x7b\"text\":\"hi\"\x7d"⟩ "E1").text = some "hi" ∧
    (normalizeMessage ⟨some ⟨some "E2", none, some "oc_1", some "p2p", some "text",
        some "not-json"⟩, none⟩
      ⟨some "E2", none, some "oc_1", some "p2p", some "text",
        some "not-json"⟩ "E2").text = none := by
  constructor
  · exact (normalize_text_extraction _
      ⟨some "E1", none, some "oc_1", some "p2p", some "text",
        some "\x7b\"text\":\"hi\"\x7d"⟩ "E1" rfl).2.2.1 rfl
  · exact (normalize_text_extraction _
      ⟨some "E2", none, some "oc_1", some "p2p", some "text",
        some "not-json"⟩ "E2" rfl).2.2.2 rfl

/-- C9: the dispatch of an admitted event's normalized message runs as a
separate phase after the admission path has produced its acknowledgment:
the acknowledgment is the empty object and, like the cache, is the same for
every dispatch callback; an error raised by the callback is caught on the
dispatch turn and logged as an error line, and a successful dispatch adds
nothing — in neither case does the dispatch outcome reach the admission
result. -/
theorem dispatch_turn_spec (onMessage : FeishuMessage → Except String Unit)
    (now : Nat) (c : DedupeCache) (data : EventData) :
    (processEvent onMessage now c data).2.2 = Ack.emptyObj ∧
    (processEvent onMessage now c data).1 = (handleEvent now c data).1 ∧
    (∀ fm e, (handleEvent now c data).2.2 = some fm → onMessage fm = Except.error e →
       (processEvent onMessage now c data).2.1 =
         (handleEvent now c data).2.1 ++
           [LogEntry.error ("Error handling message: " ++ e)]) ∧
    (∀ fm, (handleEvent now c data).2.2 = some fm → onMessage fm = Except.ok () →
       (processEvent onMessage now c data).2.1 = (handleEvent now c data).2.1) := by
  rcases hE : handleEvent now c data with ⟨c', logs, disp⟩
  cases disp with
  | none =>
    refine ⟨by simp [processEvent, hE], by simp [processEvent, hE], ?_, ?_⟩
    · intro fm e hfm herr
      simp at hfm
    · intro fm hfm hok
      simp at hfm
  | some fm0 =>
    refine ⟨by simp [processEvent, hE], by simp [processEvent, hE], ?_, ?_⟩
    · intro fm e hfm herr
      have hf : fm0 = fm := by simpa using hfm
      subst hf
      simp [processEvent, hE, runDispatchTurn, herr]
    · intro fm hfm hok
      have hf : fm0 = fm := by simpa using hfm
      subst hf
      simp [processEvent, hE, runDispatchTurn, hok]

/-- Witness for C9: a fresh text event is admitted and scheduled; a callback
that throws `boom` results in exactly one error log line appended after the
admission logs, with the acknowledgment still the empty object. -/
theorem dispatch_turn_spec_witness :
    (processEvent (fun _ => Except.error "boom") 1000 []
       ⟨some ⟨some "E1", none, some "oc_1", some "p2p", some "text",
          some "not-json"⟩, none⟩).2.2 = Ack.emptyObj ∧
    (processEvent (fun _ => Except.error "boom") 1000 []
       ⟨some ⟨some "E1", none, some "oc_1", some "p2p", some "text",
          some "not-json"⟩, none⟩).2.1 =
      [LogEntry.error "Error handling message: boom"] := by
  have h := dispatch_turn_spec (fun _ => Except.error "boom") 1000 []
    ⟨some ⟨some "E1", none, some "oc_1", some "p2p", some "text", some "not-json"⟩, none⟩
  refine ⟨h.1, ?_⟩
  have h3 := h.2.2.1
    ⟨"E1", "oc_1", "p2p", "", "text", "not-json", none⟩ "boom" ?hfm rfl
  · rw [h3]
    rfl
  · rfl

/-- C10: the channel's `onMessage` callback invokes the reply dispatcher
exactly for events of message type `text` whose extracted text is present
and non-empty, passing the message context built from the event; for every
other admitted event it returns without invoking the dispatcher or any
outbound send. -/
theorem channelOnMessage_spec (account : ResolvedFeishuAccount)
    (message : FeishuMessage) :
    (channelOnMessage account message = none ↔
      (message.messageType ≠ "text" ∨ message.text = none ∨ message.text = some "")) ∧
    (∀ s, message.messageType = "text" → message.text = some s → s ≠ "" →
      channelOnMessage account message = some
        ⟨message.senderId, s, account.accountId, "feishu", "feishu",
         "feishu:" ++ account.accountId ++ ":" ++ message.chatId, message.chatId,
         if message.chatType = "p2p" then "direct" else "group"⟩) := by
  constructor
  · constructor
    · intro hnone
      by_contra hcon
      push_neg at hcon
      obtain ⟨htype, htext, hempty⟩ := hcon
      have hfalsy : jsFalsyText message.text = false := by
        cases ht : message.text with
        | none => exact absurd ht htext
        | some s =>
          have : s ≠ "" := by
            intro hs
            subst hs
            exact hempty ht
          simp [jsFalsyText, this]
      rw [channelOnMessage, if_neg] at hnone
      · exact Option.noConfusion hnone
      · intro hcond
        rcases hcond with h | h
        · exact h htype
        · rw [hfalsy] at h
          exact Bool.noConfusion h
    · intro hcase
      rcases hcase with h | h | h
      · simp [channelOnMessage, h]
      · simp [channelOnMessage, h, jsFalsyText]
      · simp [channelOnMessage, h, jsFalsyText]
  · intro s htype htext hs
    rw [channelOnMessage, if_neg]
    · simp [htext, htype]
    · intro hcond
      rcases hcond with h | h
      · exact h htype
      · rw [htext] at h
        simp [jsFalsyText, hs] at h

/-- Witness for C10: a non-empty text message produces the dispatcher
context; a non-text message and a text message with no extracted text
produce no dispatch. -/
theorem channelOnMessage_spec_witness :
    channelOnMessage ⟨"default", "app", "sec"⟩
      ⟨"E1", "oc_1", "p2p", "ou_9", "text", "raw", some "hi"⟩ =
      some ⟨"ou_9", "hi", "default", "feishu", "feishu", "feishu:default:oc_1",
        "oc_1", "direct"⟩ ∧
    channelOnMessage ⟨"default", "app", "sec"⟩
      ⟨"E2", "oc_1", "group", "ou_9", "image", "raw", none⟩ = none ∧
    channelOnMessage ⟨"default", "app", "sec"⟩
      ⟨"E3", "oc_1", "group", "ou_9", "text", "not-json", none⟩ = none := by
  have h1 := (channelOnMessage_spec ⟨"default", "app", "sec"⟩
    ⟨"E1", "oc_1", "p2p", "ou_9", "text", "raw", some "hi"⟩).2 "hi" rfl rfl (by decide)
  have h2 := (channelOnMessage_spec ⟨"default", "app", "sec"⟩
    ⟨"E2", "oc_1", "group", "ou_9", "image", "raw", none⟩).1.mpr (by left; decide)
  have h3 := (channelOnMessage_spec ⟨"default", "app", "sec"⟩
    ⟨"E3", "oc_1", "group", "ou_9", "text", "not-json", none⟩).1.mpr (Or.inr (Or.inl rfl))
  refine ⟨?_, h2, h3⟩
  rw [h1]
  rfl

/-- C8: dedupe-cache cleanup removes exactly the entries older than the
60-second TTL; `isDuplicateMessage` triggers it only when the map exceeds
100 entries after the insert (at or below the threshold the cache is
exactly the old cache plus the new entry); and once an entry's TTL has
elapsed and cleanup has run, the same event id is admitted again. -/
theorem dedupe_cleanup_spec :
    (∀ (now : Nat) (c : DedupeCache) (e : String × Nat),
       e ∈ cleanupDedupeCache now c ↔
         e ∈ c ∧ ¬(now - e.2 > MESSAGE_DEDUPE_TTL_MS)) ∧
    (∀ (m : String) (now : Nat) (c : DedupeCache), mapGet c m = none →
       (isDuplicateMessage m now c).2 =
         (if (c ++ [(m, now)]).length > 100 then cleanupDedupeCache now (c ++ [(m, now)])
          else c ++ [(m, now)])) ∧
    (∀ (m : String) (now : Nat) (c : DedupeCache), mapGet c m = none →
       (c ++ [(m, now)]).length ≤ 100 →
       (isDuplicateMessage m now c).2 = c ++ [(m, now)]) ∧
    (∀ (m : String) (t0 t1 : Nat) (c : DedupeCache),
       (c.map Prod.fst).Nodup → mapGet c m = some t0 →
       t1 - t0 > MESSAGE_DEDUPE_TTL_MS →
       (isDuplicateMessage m t1 (cleanupDedupeCache t1 c)).1 = false) := by
  have hshape : ∀ (m : String) (now : Nat) (c : DedupeCache), mapGet c m = none →
      (isDuplicateMessage m now c).2 =
        (if (c ++ [(m, now)]).length > 100 then cleanupDedupeCache now (c ++ [(m, now)])
         else c ++ [(m, now)]) := by
    intro m now c hnone
    simp only [isDuplicateMessage, hnone, Option.isSome_none, Bool.false_eq_true, if_false]
    rw [mapSet_of_get_none c m now hnone]
  refine ⟨?_, hshape, ?_, ?_⟩
  · intro now c e
    simp [cleanupDedupeCache, List.mem_filter]
  · intro m now c hnone hlen
    rw [hshape m now c hnone, if_neg (by omega)]
  · intro m t0 t1 c hnd hget hstale
    have hnone : mapGet (cleanupDedupeCache t1 c) m = none :=
      mapGet_cleanup_stale c m t0 t1 hnd hget hstale
    simp [isDuplicateMessage, hnone]

/-- Witness for C8: entry `E1` (first seen at 0) is stale at time 60001 and
survives cleanup exactly when the claim's filter condition says so; an
insert at 2 entries stays below the threshold and performs no eviction; and
after cleanup at 60001 the id `E1` is admitted again. -/
theorem dedupe_cleanup_spec_witness :
    ((("E1", 0) ∈ cleanupDedupeCache 60001 [("E1", 0), ("E2", 50000)]) ↔
       (("E1", 0) ∈ [("E1", 0), ("E2", 50000)] ∧
        ¬(60001 - 0 > MESSAGE_DEDUPE_TTL_MS))) ∧
    (isDuplicateMessage "E3" 5 [("E2", 1)]).2 = [("E2", 1), ("E3", 5)] ∧
    (isDuplicateMessage "E1" 60001 (cleanupDedupeCache 60001 [("E1", 0)])).1 = false := by
  refine ⟨dedupe_cleanup_spec.1 60001 [("E1", 0), ("E2", 50000)] ("E1", 0), ?_, ?_⟩
  · exact dedupe_cleanup_spec.2.2.1 "E3" 5 [("E2", 1)] rfl (by decide)
  · exact dedupe_cleanup_spec.2.2.2 "E1" 0 60001 [("E1", 0)] (by decide) rfl (by decide)

end Feishu
